import Mathlib

/-!
Verification of the `data_preproc` processor framework exemplars.

This file shallowly embeds the two exemplar processors of the repository:

* `LongestExplanationMappingProcessor`
  (src/data_preproc/processors/qa_longest_mapping.py), and
* `ImageFormatConverterProcessor`
  (src/data_preproc/processors/image_format_converter.py).

Records are association lists from field names to Python-like values with
first-occurrence lookup, in-place update and pop, mirroring Python `dict`
semantics.  Fallible Python code (raising exceptions) is embedded in the
`Except` monad; the external collaborators (the `base64` module, PIL, the
filesystem) are abstracted as an `ImageRuntime` of `Option`-returning
capabilities.  Log output relevant to the claims (warnings of the image
converter) is returned explicitly as a list of message strings.
-/

set_option autoImplicit false

namespace DataPreproc

/-- An abstract in-memory decoded image, standing for a `PIL.Image.Image`
object.  Its payload is opaque to the processors under verification. -/
structure PILImage where
  data : List Nat
deriving DecidableEq, Repr

/-- A Python-like value stored in a record field: `None`, a string, an
integer, a boolean, a raw byte string, a nested dict, a list, or a decoded
PIL image object. -/
inductive Value where
  | none : Value
  | str : String → Value
  | int : Int → Value
  | bool : Bool → Value
  | bytes : List Nat → Value
  | dict : List (String × Value) → Value
  | list : List Value → Value
  | pil : PILImage → Value

/-- A record: one row of the dataset, a field-name-to-value mapping with
Python `dict` semantics (ordered, first occurrence wins). -/
abbrev Record := List (String × Value)

/-- `d.get(k)` on a Python dict: the value at the first occurrence of key
`k`, or absent. -/
def dictGet : Record → String → Option Value
  | [], _ => Option.none
  | (k0, v0) :: rest, k => if k0 = k then some v0 else dictGet rest k

/-- `d[k] = v` on a Python dict: replace the value at the first occurrence
of `k` in place, or append the pair at the end. -/
def dictSet : Record → String → Value → Record
  | [], k, v => [(k, v)]
  | (k0, v0) :: rest, k, v =>
    if k0 = k then (k, v) :: rest else (k0, v0) :: dictSet rest k v

/-- `d.pop(k, None)` on a Python dict: remove the first occurrence of key
`k` when present. -/
def dictPop : Record → String → Record
  | [], _ => []
  | (k0, v0) :: rest, k => if k0 = k then rest else (k0, v0) :: dictPop rest k

/-- Pop each key of a list in turn (models iterating a Python set of field
names and popping each; pops commute, so the iteration order is irrelevant). -/
def dictPopMany (d : Record) (ks : List String) : Record :=
  ks.foldl dictPop d

/-- `d.get(k)` with a `None` default, as a `Value`. -/
def dictGetD (d : Record) (k : String) : Value :=
  (dictGet d k).getD Value.none

/-- Python `str()` coercion.  String coercion of non-scalar values (their
`repr`) is abstracted by constant placeholders; the processors only use the
result's characters, never its internal structure. -/
def pyStr : Value → String
  | Value.none => "None"
  | Value.str s => s
  | Value.int n => toString n
  | Value.bool b => if b then "True" else "False"
  | Value.bytes _ => "bytes-repr"
  | Value.dict _ => "dict-repr"
  | Value.list _ => "list-repr"
  | Value.pil _ => "pil-repr"

/-- Python `str.strip()`: remove leading and trailing whitespace
characters. -/
def pyStrip (s : String) : String :=
  String.mk (((s.data.dropWhile Char.isWhitespace).reverse.dropWhile
    Char.isWhitespace).reverse)

/-- Python truthiness of a value. -/
def pyTruthy : Value → Bool
  | Value.none => false
  | Value.str s => s ≠ ""
  | Value.int n => n ≠ 0
  | Value.bool b => b
  | Value.bytes l => l ≠ []
  | Value.dict d => !d.isEmpty
  | Value.list l => !l.isEmpty
  | Value.pil _ => true

/-- `x is None` check. -/
def isNone : Value → Bool
  | Value.none => true
  | _ => false

/-- `isinstance(x, str)` check. -/
def isStr : Value → Bool
  | Value.str _ => true
  | _ => false

/-- `isinstance(x, bytes)` check. -/
def isBytes : Value → Bool
  | Value.bytes _ => true
  | _ => false

/-- `isinstance(x, dict)` check. -/
def isDict : Value → Bool
  | Value.dict _ => true
  | _ => false

/-- `isinstance(x, list)` check. -/
def isList : Value → Bool
  | Value.list _ => true
  | _ => false

/-- `isinstance(x, PIL.Image.Image)` check. -/
def isPIL : Value → Bool
  | Value.pil _ => true
  | _ => false

/-- Projection of a string value (only used under an `isStr` guard). -/
def asStr : Value → String
  | Value.str s => s
  | _ => ""

/-- Projection of a bytes value (only used under an `isBytes` guard). -/
def asBytes : Value → List Nat
  | Value.bytes l => l
  | _ => []

/-- Projection of a dict value (only used under an `isDict` guard). -/
def asDict : Value → List (String × Value)
  | Value.dict d => d
  | _ => []

/-- Projection of a PIL-image value (only used under an `isPIL` guard). -/
def asPIL : Value → PILImage
  | Value.pil i => i
  | _ => ⟨[]⟩

/-! ## The Longest-Explanation Selector
Embedding of `LongestExplanationMappingProcessor`
(src/data_preproc/processors/qa_longest_mapping.py). -/

/-- Configuration of `LongestExplanationMappingProcessor.__init__`, with the
source defaults. -/
structure QAConfig where
  qa_pairs_field : String := "qa_pairs"
  question_field : String := "question"
  explanation_field : String := "explanation"
  answer_field : String := "answer"
  problem_field : String := "problem"
  solution_field : String := "solution"
  keep_unmapped : Bool := true
  remove_source_fields : Bool := false

/-- The default field names with the two behavioural flags chosen. -/
def mkQAConfig (keep remove : Bool) : QAConfig :=
  { keep_unmapped := keep, remove_source_fields := remove }

/-- `_as_list`: `None` (or a missing field) becomes `[]`, a list stays
itself, any other value becomes a one-element list. -/
def asList : Option Value → List Value
  | Option.none => []
  | some Value.none => []
  | some (Value.list l) => l
  | some v => [v]

/-- `_have_matching_lengths`: the set of the three lengths is a singleton. -/
def haveMatchingLengths (qs es as : List Value) : Bool :=
  ([qs.length, es.length, as.length].dedup).length = 1

/-- The loop of `_select_longest_index`: running maximum length (an `Int`,
initially `-1`) and running argmax index. -/
def selectLongestAux : List Value → Nat → Int → Option Nat → Option Nat
  | [], _, _, maxIndex => maxIndex
  | item :: rest, idx, maxLength, maxIndex =>
    if isNone item then selectLongestAux rest (idx + 1) maxLength maxIndex
    else
      let currentLength : Int := (pyStr item).length
      if maxLength < currentLength then
        selectLongestAux rest (idx + 1) currentLength (some idx)
      else
        selectLongestAux rest (idx + 1) maxLength maxIndex

/-- `_select_longest_index`: index of the first non-null entry of greatest
string-coerced length, or no index when every entry is null. -/
def selectLongestIndex (explanations : List Value) : Option Nat :=
  selectLongestAux explanations 0 (-1) Option.none

/-- `_format_solution`: the literal solution template. -/
def formatSolution (explanation answer : String) : String :=
  explanation ++ "\n\nThe answer is \\boxed\x7b" ++ answer ++ "\x7d."

/-- `_get_source_container`: the qa-pairs field when it holds a dict,
otherwise the empty container. -/
def getSourceContainer (cfg : QAConfig) (ex : Record) : Record :=
  match dictGet ex cfg.qa_pairs_field with
  | some (Value.dict d) => d
  | _ => []

/-- Python sequence indexing `seq[i]`, raising `IndexError` out of range. -/
def pyIndex (l : List Value) (i : Nat) : Except String Value :=
  match l.get? i with
  | some v => Except.ok v
  | Option.none => Except.error "IndexError"

/-- Construction of the output record (`process_example` lines 71-82):
start from the original record or from an empty one, add the problem and
solution fields, then optionally remove the source fields. -/
def qaBuild (cfg : QAConfig) (ex : Record)
    (question explanation answer : String) : Record :=
  let result0 := if cfg.keep_unmapped then ex else []
  let result1 := dictSet result0 cfg.problem_field (Value.str question)
  let result2 := dictSet result1 cfg.solution_field
    (Value.str (formatSolution explanation answer))
  if cfg.remove_source_fields then
    if cfg.qa_pairs_field ≠ "" then dictPop result2 cfg.qa_pairs_field
    else dictPopMany result2
      [cfg.question_field, cfg.explanation_field, cfg.answer_field]
  else result2

/-- The checks, selection, extraction and output construction of
`process_example` (lines 36-82), given the three coerced sequences. -/
def processBodyCore (cfg : QAConfig) (ex : Record)
    (questions explanations answers : List Value) :
    Except String (Option Record) :=
  if questions.isEmpty ∨ explanations.isEmpty ∨ answers.isEmpty then
    Except.ok Option.none
  else if ¬ haveMatchingLengths questions explanations answers then
    Except.ok Option.none
  else
    match selectLongestIndex explanations with
    | Option.none => Except.ok Option.none
    | some index =>
      match pyIndex questions index with
      | Except.error e => Except.error e
      | Except.ok vq =>
        match pyIndex explanations index with
        | Except.error e => Except.error e
        | Except.ok ve =>
          match pyIndex answers index with
          | Except.error e => Except.error e
          | Except.ok va =>
            let question := pyStrip (pyStr vq)
            let explanation := pyStrip (pyStr ve)
            let answer := pyStrip (pyStr va)
            if question = "" ∨ explanation = "" ∨ answer = "" then
              Except.ok Option.none
            else
              Except.ok (some (qaBuild cfg ex question explanation answer))

/-- The body of `process_example` (the code inside its `try`), in the
`Except` monad: read the source container, coerce the three parallel
sequences, then run the checks, the selection and the output construction.
`Except.ok Option.none` is the drop marker, an `Except.error` is a raised
exception. -/
def processBody (cfg : QAConfig) (ex : Record) :
    Except String (Option Record) :=
  processBodyCore cfg ex
    (asList (dictGet (getSourceContainer cfg ex) cfg.question_field))
    (asList (dictGet (getSourceContainer cfg ex) cfg.explanation_field))
    (asList (dictGet (getSourceContainer cfg ex) cfg.answer_field))

/-- The `try`/`except` wrapper of `process_example`: a normal body result is
passed through; a raised exception is caught, and the original record is
returned when `keep_unmapped` holds, else the record is dropped. -/
def processExampleWith (cfg : QAConfig) (ex : Record)
    (body : Except String (Option Record)) : Option Record :=
  match body with
  | Except.ok r => r
  | Except.error _ => if cfg.keep_unmapped then some ex else Option.none

/-- `LongestExplanationMappingProcessor.process_example`. -/
def processExample (cfg : QAConfig) (ex : Record) : Option Record :=
  processExampleWith cfg ex (processBody cfg ex)

/-! ## The Image Normalizer
Embedding of `ImageFormatConverterProcessor`
(src/data_preproc/processors/image_format_converter.py). -/

/-- Exceptions the image converter can raise or observe: the two
construction-time capability failures (`ImportError`), and the per-record
conversion failures (a base64 decode error, an image decode error, a
path-load error). -/
inductive ImgErr where
  | importPIL : ImgErr
  | importDatasets : ImgErr
  | b64Error : ImgErr
  | imageError : ImgErr
  | pathError : ImgErr
deriving DecidableEq, Repr

/-- The runtime capabilities the converter depends on: whether PIL and
`datasets.Image` imported, plus the external decode/encode collaborators
(`base64.b64decode`, `PIL.Image.open` on bytes and on a path value, and
PNG-encoding a PIL image), abstracted as functions; `Option.none` is a
failed (raising) call. -/
structure ImageRuntime where
  hasPIL : Bool
  hasDatasetsImage : Bool
  b64decode : String → Option (List Nat)
  pilOpenBytes : List Nat → Option PILImage
  pilOpenPath : Value → Option PILImage
  pilSavePNG : PILImage → List Nat

/-- The configuration options read by
`ImageFormatConverterProcessor.__init__`, with the source defaults. -/
structure ImgConfig where
  image_fields : List String := ["image"]
  target_format : String := "hf_image"
  skip_on_error : Bool := true

/-- The state a successfully constructed converter holds. -/
structure ImgProcessor where
  image_fields : List String
  target_format : String
  skip_on_error : Bool
deriving DecidableEq, Repr

/-- `ImageFormatConverterProcessor.__init__`: raise `ImportError` when PIL
or `datasets.Image` is unavailable, otherwise store the configuration. -/
def imgInit (rt : ImageRuntime) (cfg : ImgConfig) : Except ImgErr ImgProcessor :=
  if ¬ rt.hasPIL then Except.error ImgErr.importPIL
  else if ¬ rt.hasDatasetsImage then Except.error ImgErr.importDatasets
  else Except.ok
    { image_fields := cfg.image_fields
      target_format := cfg.target_format
      skip_on_error := cfg.skip_on_error }

/-- Warning message of the bare inner `except` of the base64-text branches. -/
def warnB64 (field : String) : String :=
  "Failed to decode base64 string for field " ++ field

/-- Warning for a structured value whose `bytes` entry is neither text nor
raw bytes. -/
def warnBytesType : String := "Unexpected bytes type"

/-- Warning for a dict value with neither usable `bytes` nor `path`. -/
def warnDictFormat : String := "Dict image format not recognized"

/-- Warning of the outer handler of `_convert_to_pil`. -/
def warnConvertPil (field : String) : String :=
  "Error converting image in field " ++ field

/-- Warning of the per-field handler of `_convert_to_bytes`. -/
def warnConvertBytes (field : String) : String :=
  "Error converting image to bytes in field " ++ field

/-- The dispatch inside the `try` of `_convert_to_pil`, for the value
`imageData` found at `field`: returns the updated record together with the
warnings logged, or the exception raised. -/
def convertToPilValue (rt : ImageRuntime) (ex : Record) (field : String)
    (imageData : Value) : Except ImgErr (Record × List String) :=
  if isNone imageData then Except.ok (ex, [])
  else if isPIL imageData then Except.ok (ex, [])
  else if isDict imageData then
    if (dictGet (asDict imageData) "bytes").isSome then
      if isStr (dictGetD (asDict imageData) "bytes") then
        match rt.b64decode (asStr (dictGetD (asDict imageData) "bytes")) with
        | some bs =>
          match rt.pilOpenBytes bs with
          | some img => Except.ok (dictSet ex field (Value.pil img), [])
          | Option.none => Except.error ImgErr.imageError
        | Option.none => Except.error ImgErr.b64Error
      else if isBytes (dictGetD (asDict imageData) "bytes") then
        match rt.pilOpenBytes (asBytes (dictGetD (asDict imageData) "bytes")) with
        | some img => Except.ok (dictSet ex field (Value.pil img), [])
        | Option.none => Except.error ImgErr.imageError
      else Except.ok (ex, [warnBytesType])
    else if (dictGet (asDict imageData) "path").isSome ∧
        pyTruthy (dictGetD (asDict imageData) "path") then
      match rt.pilOpenPath (dictGetD (asDict imageData) "path") with
      | some img => Except.ok (dictSet ex field (Value.pil img), [])
      | Option.none => Except.error ImgErr.pathError
    else Except.ok (ex, [warnDictFormat])
  else if isBytes imageData then
    match rt.pilOpenBytes (asBytes imageData) with
    | some img => Except.ok (dictSet ex field (Value.pil img), [])
    | Option.none => Except.error ImgErr.imageError
  else if isStr imageData then
    Except.ok (match rt.b64decode (asStr imageData) with
      | Option.none => (ex, [warnB64 field])
      | some bs =>
        match rt.pilOpenBytes bs with
        | Option.none => (ex, [warnB64 field])
        | some img => (dictSet ex field (Value.pil img), []))
  else Except.ok (ex, [])

/-- `_convert_to_pil`: skip a missing field; otherwise run the dispatch
under the outer handler, which on error logs a warning and, when
`skip_on_error` is unset, re-raises. -/
def convertToPil (rt : ImageRuntime) (skipOnError : Bool) (ex : Record)
    (field : String) : Except ImgErr (Record × List String) :=
  match dictGet ex field with
  | Option.none => Except.ok (ex, [])
  | some imageData =>
    match convertToPilValue rt ex field imageData with
    | Except.ok res => Except.ok res
    | Except.error e =>
      if skipOnError then Except.ok (ex, [warnConvertPil field])
      else Except.error e

/-- The dispatch inside the per-field `try` of `_convert_to_bytes`. -/
def convertToBytesValue (rt : ImageRuntime) (ex : Record) (field : String)
    (imageData : Value) : Except ImgErr (Record × List String) :=
  if isNone imageData then Except.ok (ex, [])
  else if isPIL imageData then
    Except.ok (dictSet ex field (Value.bytes (rt.pilSavePNG (asPIL imageData))), [])
  else if isDict imageData then
    if (dictGet (asDict imageData) "bytes").isSome then
      if isStr (dictGetD (asDict imageData) "bytes") then
        match rt.b64decode (asStr (dictGetD (asDict imageData) "bytes")) with
        | some bs => Except.ok (dictSet ex field (Value.bytes bs), [])
        | Option.none => Except.error ImgErr.b64Error
      else Except.ok (dictSet ex field (dictGetD (asDict imageData) "bytes"), [])
    else Except.ok (ex, [])
  else if isBytes imageData then Except.ok (ex, [])
  else if isStr imageData then
    Except.ok (match rt.b64decode (asStr imageData) with
      | some bs => (dictSet ex field (Value.bytes bs), [])
      | Option.none => (ex, [warnB64 field]))
  else Except.ok (ex, [])

/-- One iteration of the field loop of `_convert_to_bytes`: skip a missing
field; otherwise run the dispatch under the per-field handler. -/
def convertToBytesField (rt : ImageRuntime) (skipOnError : Bool) (ex : Record)
    (field : String) : Except ImgErr (Record × List String) :=
  match dictGet ex field with
  | Option.none => Except.ok (ex, [])
  | some imageData =>
    match convertToBytesValue rt ex field imageData with
    | Except.ok res => Except.ok res
    | Except.error e =>
      if skipOnError then Except.ok (ex, [warnConvertBytes field])
      else Except.error e

/-- The field loop of `_convert_to_bytes` over `image_fields`. -/
def convertToBytes (rt : ImageRuntime) (skipOnError : Bool) :
    List String → Record → Except ImgErr (Record × List String)
  | [], ex => Except.ok (ex, [])
  | f :: fs, ex =>
    match convertToBytesField rt skipOnError ex f with
    | Except.error e => Except.error e
    | Except.ok (ex2, w1) =>
      match convertToBytes rt skipOnError fs ex2 with
      | Except.error e => Except.error e
      | Except.ok (ex3, w2) => Except.ok (ex3, w1 ++ w2)

/-- The field loop of `process_example` in hf_image mode:
`example = self._convert_to_pil(example, field)` for each configured field. -/
def convertFieldsPil (rt : ImageRuntime) (skipOnError : Bool) :
    List String → Record → Except ImgErr (Record × List String)
  | [], ex => Except.ok (ex, [])
  | f :: fs, ex =>
    match convertToPil rt skipOnError ex f with
    | Except.error e => Except.error e
    | Except.ok (ex2, w1) =>
      match convertFieldsPil rt skipOnError fs ex2 with
      | Except.error e => Except.error e
      | Except.ok (ex3, w2) => Except.ok (ex3, w1 ++ w2)

/-- `ImageFormatConverterProcessor.process_example`: run the per-field
hf_image conversion, or the bytes conversion, and return the (never absent)
record; the `Option` in the result mirrors the `Optional` return type. -/
def imgProcessExample (rt : ImageRuntime) (p : ImgProcessor) (ex : Record) :
    Except ImgErr (Option Record × List String) :=
  if p.target_format = "hf_image" then
    match convertFieldsPil rt p.skip_on_error p.image_fields ex with
    | Except.error e => Except.error e
    | Except.ok (ex2, w) => Except.ok (some ex2, w)
  else
    match convertToBytes rt p.skip_on_error p.image_fields ex with
    | Except.error e => Except.error e
    | Except.ok (ex2, w) => Except.ok (some ex2, w)

/-- Modelled from the spec: the Pipeline Executor's default per-record
execution mode (spec section 4.2, "map `processExample` over every record in
original order, remove all absent results").  The Executor implementation is
not among the provided sources; the model maps the transform over the list
of records, drops absent results, and propagates an uncaught failure. -/
def defaultApply (f : Record → Except ImgErr (Option Record)) :
    List Record → Except ImgErr (List Record)
  | [] => Except.ok []
  | r :: rs =>
    match f r with
    | Except.error e => Except.error e
    | Except.ok Option.none => defaultApply f rs
    | Except.ok (some r2) =>
      match defaultApply f rs with
      | Except.error e => Except.error e
      | Except.ok out => Except.ok (r2 :: out)

/-! ## Lemmas about records and the selection loop -/

theorem isNone_iff (v : Value) : isNone v = true ↔ v = Value.none := by
  cases v <;> simp [isNone]

theorem dictGet_set_self (d : Record) (k : String) (v : Value) :
    dictGet (dictSet d k v) k = some v := by
  induction d with
  | nil => simp [dictGet, dictSet]
  | cons p rest ih =>
    obtain ⟨k0, v0⟩ := p
    by_cases h : k0 = k <;> simp [dictGet, dictSet, h, ih]

theorem dictGet_set_ne (d : Record) (k1 k2 : String) (v : Value)
    (h : k1 ≠ k2) : dictGet (dictSet d k1 v) k2 = dictGet d k2 := by
  induction d with
  | nil => simp [dictGet, dictSet, h]
  | cons p rest ih =>
    obtain ⟨k0, v0⟩ := p
    by_cases h0 : k0 = k1
    · subst h0; simp [dictGet, dictSet, h]
    · simp [dictGet, dictSet, h0, ih]

theorem dictGet_pop_ne (d : Record) (k1 k2 : String) (h : k1 ≠ k2) :
    dictGet (dictPop d k1) k2 = dictGet d k2 := by
  induction d with
  | nil => simp [dictGet, dictPop]
  | cons p rest ih =>
    obtain ⟨k0, v0⟩ := p
    by_cases h0 : k0 = k1
    · subst h0; simp [dictGet, dictPop, h, ih]
    · simp [dictGet, dictPop, h0, ih]

/-- Specification recursion for `_select_longest_index`: the index of the
first non-null entry of maximal string-coerced length, together with that
length. -/
def firstMax : List Value → Option (Nat × Nat)
  | [] => Option.none
  | item :: rest =>
    if isNone item then (firstMax rest).map (fun p => (p.1 + 1, p.2))
    else
      match firstMax rest with
      | Option.none => some (0, (pyStr item).length)
      | some (j, m) =>
        if (pyStr item).length < m then some (j + 1, m)
        else some (0, (pyStr item).length)

theorem selectLongestAux_eq (rest : List Value) :
    ∀ (idx : Nat) (maxLength : Int) (maxIndex : Option Nat),
      selectLongestAux rest idx maxLength maxIndex =
        (match firstMax rest with
         | Option.none => maxIndex
         | some (j, m) =>
           if maxLength < (m : Int) then some (idx + j) else maxIndex) := by
  induction rest with
  | nil =>
    intro idx maxLength maxIndex
    simp [selectLongestAux, firstMax]
  | cons item rest ih =>
    intro idx maxLength maxIndex
    by_cases hn : isNone item
    · rw [show selectLongestAux (item :: rest) idx maxLength maxIndex =
          selectLongestAux rest (idx + 1) maxLength maxIndex by
            simp [selectLongestAux, hn]]
      rw [ih]
      cases hfm : firstMax rest with
      | none => simp [firstMax, hn, hfm]
      | some p =>
        obtain ⟨j, m⟩ := p
        simp only [firstMax, hn, if_true, hfm, Option.map_some']
        have harith : idx + 1 + j = idx + (j + 1) := by omega
        rw [harith]
    · have hL : selectLongestAux (item :: rest) idx maxLength maxIndex =
          (if maxLength < ((pyStr item).length : Int) then
            selectLongestAux rest (idx + 1) ((pyStr item).length : Int) (some idx)
          else selectLongestAux rest (idx + 1) maxLength maxIndex) := by
        simp [selectLongestAux, hn]
      rw [hL, ih, ih]
      cases hfm : firstMax rest with
      | none =>
        simp only [firstMax, hn, if_false, hfm]
        by_cases hc : maxLength < ((pyStr item).length : Int) <;> simp [hc]
      | some p =>
        obtain ⟨j, m⟩ := p
        simp only [firstMax, hn, if_false, hfm, Bool.false_eq_true]
        by_cases hlm : (pyStr item).length < m
        · have hlm' : ((pyStr item).length : Int) < (m : Int) := by
            exact_mod_cast hlm
          simp only [if_pos hlm]
          by_cases hc : maxLength < ((pyStr item).length : Int)
          · have hcm : maxLength < (m : Int) := lt_trans hc hlm'
            have harith : idx + 1 + j = idx + (j + 1) := by omega
            simp [hc, hlm', hcm, harith]
          · have harith : idx + 1 + j = idx + (j + 1) := by omega
            simp [hc, harith]
        · have hlm' : ¬ ((pyStr item).length : Int) < (m : Int) := by
            exact_mod_cast hlm
          simp only [if_neg hlm]
          by_cases hc : maxLength < ((pyStr item).length : Int)
          · simp [hc, hlm']
          · have hcm : ¬ maxLength < (m : Int) := by
              intro hmm
              have : ((pyStr item).length : Int) < (m : Int) := by omega
              exact hlm' this
            simp [hc, hcm]

theorem selectLongestIndex_eq (xs : List Value) :
    selectLongestIndex xs = (firstMax xs).map Prod.fst := by
  unfold selectLongestIndex
  rw [selectLongestAux_eq]
  cases hfm : firstMax xs with
  | none => rfl
  | some p =>
    obtain ⟨j, m⟩ := p
    have hm : (-1 : Int) < (m : Int) := by
      have := Int.natCast_nonneg m
      omega
    simp [hm]

theorem firstMax_none_iff (xs : List Value) :
    firstMax xs = Option.none ↔ ∀ x ∈ xs, x = Value.none := by
  induction xs with
  | nil => simp [firstMax]
  | cons item rest ih =>
    by_cases hn : isNone item
    · have hitem : item = Value.none := (isNone_iff item).mp hn
      subst hitem
      simp only [firstMax, if_pos hn]
      constructor
      · intro h
        have hrest : firstMax rest = Option.none := by
          cases hfm : firstMax rest with
          | none => rfl
          | some p => rw [hfm] at h; simp at h
        intro x hx
        rcases List.mem_cons.mp hx with h1 | h2
        · exact h1
        · exact (ih.mp hrest) x h2
      · intro h
        have hrest : firstMax rest = Option.none :=
          ih.mpr (fun x hx => h x (List.mem_cons_of_mem _ hx))
        rw [hrest]; rfl
    · have hitem : item ≠ Value.none := by
        intro h
        exact hn ((isNone_iff item).mpr h)
      constructor
      · intro h
        exfalso
        rw [show firstMax (item :: rest) =
            (match firstMax rest with
             | Option.none => some (0, (pyStr item).length)
             | some (j, m) =>
               if (pyStr item).length < m then some (j + 1, m)
               else some (0, (pyStr item).length)) by simp [firstMax, hn]] at h
        cases hfm : firstMax rest with
        | none => rw [hfm] at h; simp at h
        | some p =>
          obtain ⟨j, m⟩ := p
          rw [hfm] at h
          by_cases hc : (pyStr item).length < m <;> simp [hc] at h
      · intro h
        exact absurd (h item (List.mem_cons_self _ _)) hitem

theorem firstMax_spec (xs : List Value) :
    ∀ (j m : Nat), firstMax xs = some (j, m) →
      ∃ v, xs.get? j = some v ∧ v ≠ Value.none ∧ (pyStr v).length = m ∧
        (∀ k w, xs.get? k = some w → w ≠ Value.none → (pyStr w).length ≤ m) ∧
        (∀ k w, k < j → xs.get? k = some w → w ≠ Value.none →
          (pyStr w).length < m) := by
  induction xs with
  | nil => intro j m h; simp [firstMax] at h
  | cons item rest ih =>
    intro j m h
    by_cases hn : isNone item
    · have hitem : item = Value.none := (isNone_iff item).mp hn
      rw [show firstMax (item :: rest) =
          (firstMax rest).map (fun p => (p.1 + 1, p.2)) by
            simp [firstMax, hn]] at h
      cases hfm : firstMax rest with
      | none => rw [hfm] at h; simp at h
      | some p =>
        obtain ⟨j0, m0⟩ := p
        rw [hfm] at h
        simp only [Option.map_some', Option.some_inj, Prod.mk.injEq] at h
        obtain ⟨hj, hm⟩ := h
        subst hj; subst hm
        obtain ⟨v, hget, hvn, hlen, hle, hlt⟩ := ih j0 m0 hfm
        refine ⟨v, ?_, hvn, hlen, ?_, ?_⟩
        · simpa using hget
        · intro k w hk hw
          cases k with
          | zero =>
            simp at hk
            rw [← hk] at hw
            exact absurd hitem hw
          | succ k0 =>
            exact hle k0 w (by simpa using hk) hw
        · intro k w hkj hk hw
          cases k with
          | zero =>
            simp at hk
            rw [← hk] at hw
            exact absurd hitem hw
          | succ k0 =>
            have : k0 < j0 := by omega
            exact hlt k0 w this (by simpa using hk) hw
    · have hitem : item ≠ Value.none := fun hh => hn ((isNone_iff item).mpr hh)
      rw [show firstMax (item :: rest) =
          (match firstMax rest with
           | Option.none => some (0, (pyStr item).length)
           | some (j, m) =>
             if (pyStr item).length < m then some (j + 1, m)
             else some (0, (pyStr item).length)) by simp [firstMax, hn]] at h
      cases hfm : firstMax rest with
      | none =>
        rw [hfm] at h
        dsimp only at h
        simp only [Option.some_inj, Prod.mk.injEq] at h
        obtain ⟨hj, hm⟩ := h
        subst hj; subst hm
        have hall : ∀ x ∈ rest, x = Value.none := (firstMax_none_iff rest).mp hfm
        refine ⟨item, by simp, hitem, rfl, ?_, ?_⟩
        · intro k w hk hw
          cases k with
          | zero => simp at hk; rw [hk]
          | succ k0 =>
            exfalso
            have hmem : w ∈ rest := List.get?_mem (by simpa using hk)
            exact hw (hall w hmem)
        · intro k w hkj
          omega
      | some p =>
        obtain ⟨j0, m0⟩ := p
        rw [hfm] at h
        dsimp only at h
        obtain ⟨v0, hget0, hvn0, hlen0, hle0, hlt0⟩ := ih j0 m0 hfm
        by_cases hc : (pyStr item).length < m0
        · rw [if_pos hc] at h
          simp only [Option.some_inj, Prod.mk.injEq] at h
          obtain ⟨hj, hm⟩ := h
          subst hj; subst hm
          refine ⟨v0, ?_, hvn0, hlen0, ?_, ?_⟩
          · simpa using hget0
          · intro k w hk hw
            cases k with
            | zero =>
              simp at hk
              rw [← hk]
              exact le_of_lt hc
            | succ k0 => exact hle0 k0 w (by simpa using hk) hw
          · intro k w hkj hk hw
            cases k with
            | zero =>
              simp at hk
              rw [← hk]
              exact hc
            | succ k0 =>
              have : k0 < j0 := by omega
              exact hlt0 k0 w this (by simpa using hk) hw
        · rw [if_neg hc] at h
          simp only [Option.some_inj, Prod.mk.injEq] at h
          obtain ⟨hj, hm⟩ := h
          subst hj; subst hm
          refine ⟨item, by simp, hitem, rfl, ?_, ?_⟩
          · intro k w hk hw
            cases k with
            | zero => simp at hk; rw [hk]
            | succ k0 =>
              have := hle0 k0 w (by simpa using hk) hw
              omega
          · intro k w hkj
            omega

/-- The selection result is an in-range index. -/
theorem selectLongestIndex_lt (xs : List Value) (i : Nat)
    (h : selectLongestIndex xs = some i) : i < xs.length := by
  rw [selectLongestIndex_eq] at h
  cases hfm : firstMax xs with
  | none => rw [hfm] at h; simp at h
  | some p =>
    obtain ⟨j, m⟩ := p
    rw [hfm] at h
    simp only [Option.map_some'] at h
    have hj : j = i := by simpa using h
    subst hj
    obtain ⟨v, hget, _⟩ := firstMax_spec xs j m hfm
    obtain ⟨hlt, -⟩ := List.get?_eq_some.mp hget
    exact hlt

/-! ## Lemmas about the processor body -/

theorem dedup_pair (b c : Nat) :
    ([b, c].dedup) = if b = c then [c] else [b, c] := by
  by_cases h : b = c
  · subst h
    rw [if_pos rfl]
    have hm : b ∈ [b] := by simp
    have hsing : [b].dedup = [b] := by
      rw [List.dedup_cons_of_not_mem (by simp), List.dedup_nil]
    rw [List.dedup_cons_of_mem hm, hsing]
  · rw [if_neg h]
    have hm : b ∉ [c] := by simp [h]
    have hsing : [c].dedup = [c] := by
      rw [List.dedup_cons_of_not_mem (by simp), List.dedup_nil]
    rw [List.dedup_cons_of_not_mem hm, hsing]

theorem haveMatchingLengths_iff (qs es as : List Value) :
    haveMatchingLengths qs es as = true ↔
      (qs.length = es.length ∧ es.length = as.length) := by
  unfold haveMatchingLengths
  rw [decide_eq_true_iff]
  set a := qs.length
  set b := es.length
  set c := as.length
  have hpair := dedup_pair b c
  by_cases hbc : b = c
  · rw [if_pos hbc] at hpair
    by_cases hab : a = b
    · have hm : a ∈ [b, c] := by simp [hab]
      rw [List.dedup_cons_of_mem hm, hpair]
      simp [hab, hbc]
    · have hm : a ∉ [b, c] := by simp [hab, hbc ▸ hab]
      rw [List.dedup_cons_of_not_mem hm, hpair]
      simp [hab]
  · rw [if_neg hbc] at hpair
    constructor
    · intro hlen
      exfalso
      by_cases hmem : a ∈ [b, c]
      · rw [List.dedup_cons_of_mem hmem, hpair] at hlen
        simp at hlen
      · rw [List.dedup_cons_of_not_mem hmem, hpair] at hlen
        simp at hlen
    · intro ⟨_, h2⟩
      exact absurd h2 hbc

theorem pyIndex_ok (l : List Value) (i : Nat) (h : i < l.length) :
    ∃ v, pyIndex l i = Except.ok v ∧ l.get? i = some v := by
  unfold pyIndex
  cases hget : l.get? i with
  | none =>
    exfalso
    rw [List.get?_eq_none] at hget
    omega
  | some v => exact ⟨v, rfl, rfl⟩

theorem processBodyCore_ok (cfg : QAConfig) (ex : Record)
    (qs es as : List Value) :
    ∃ o, processBodyCore cfg ex qs es as = Except.ok o := by
  unfold processBodyCore
  split
  · exact ⟨_, rfl⟩
  · split
    · exact ⟨_, rfl⟩
    · rename_i hempty hmatch
      cases hsel : selectLongestIndex es with
      | none => exact ⟨_, rfl⟩
      | some i =>
        have hi : i < es.length := selectLongestIndex_lt es i hsel
        rw [not_not] at hmatch
        obtain ⟨hqe, hea⟩ := (haveMatchingLengths_iff qs es as).mp hmatch
        obtain ⟨vq, hq, -⟩ := pyIndex_ok qs i (by omega)
        obtain ⟨ve, he, -⟩ := pyIndex_ok es i hi
        obtain ⟨va, ha, -⟩ := pyIndex_ok as i (by omega)
        dsimp only
        rw [hq, he, ha]
        dsimp only
        split
        · exact ⟨_, rfl⟩
        · exact ⟨_, rfl⟩

theorem processBody_ok (cfg : QAConfig) (ex : Record) :
    ∃ o, processBody cfg ex = Except.ok o :=
  processBodyCore_ok cfg ex _ _ _

/-- Inversion of a successful (non-dropping) run of the body. -/
theorem processBodyCore_some (cfg : QAConfig) (ex : Record)
    (qs es as : List Value) (r : Record)
    (h : processBodyCore cfg ex qs es as = Except.ok (some r)) :
    qs ≠ [] ∧ es ≠ [] ∧ as ≠ [] ∧
    qs.length = es.length ∧ es.length = as.length ∧
    ∃ i vq ve va, selectLongestIndex es = some i ∧
      qs.get? i = some vq ∧ es.get? i = some ve ∧ as.get? i = some va ∧
      pyStrip (pyStr vq) ≠ "" ∧ pyStrip (pyStr ve) ≠ "" ∧ pyStrip (pyStr va) ≠ "" ∧
      r = qaBuild cfg ex (pyStrip (pyStr vq)) (pyStrip (pyStr ve))
        (pyStrip (pyStr va)) := by
  unfold processBodyCore at h
  split at h
  · simp at h
  · split at h
    · simp at h
    · rename_i hempty hmatch
      rw [not_or, not_or] at hempty
      obtain ⟨hq0, he0, ha0⟩ := hempty
      rw [not_not] at hmatch
      obtain ⟨hqe, hea⟩ := (haveMatchingLengths_iff qs es as).mp hmatch
      cases hsel : selectLongestIndex es with
      | none => rw [hsel] at h; simp at h
      | some i =>
        rw [hsel] at h
        have hi : i < es.length := selectLongestIndex_lt es i hsel
        obtain ⟨vq, hq, hq2⟩ := pyIndex_ok qs i (by omega)
        obtain ⟨ve, he, he2⟩ := pyIndex_ok es i hi
        obtain ⟨va, ha, ha2⟩ := pyIndex_ok as i (by omega)
        dsimp only at h
        rw [hq, he, ha] at h
        dsimp only at h
        split at h
        · simp at h
        · rename_i hstrip
          rw [not_or, not_or] at hstrip
          obtain ⟨hs1, hs2, hs3⟩ := hstrip
          simp only [Except.ok.injEq, Option.some_inj] at h
          refine ⟨?_, ?_, ?_, hqe, hea, i, vq, ve, va, rfl, hq2, he2, ha2,
            hs1, hs2, hs3, h.symm⟩
          · simpa [List.isEmpty_iff] using hq0
          · simpa [List.isEmpty_iff] using he0
          · simpa [List.isEmpty_iff] using ha0

/-- Output-construction lemma for the default field names: the built record
holds the formatted solution under `solution` and the stripped question
under `problem`, whatever the two flags are. -/
theorem qaBuild_get_default (keep remove : Bool) (ex : Record)
    (q e a : String) :
    dictGet (qaBuild (mkQAConfig keep remove) ex q e a) "solution" =
      some (Value.str (formatSolution e a)) ∧
    dictGet (qaBuild (mkQAConfig keep remove) ex q e a) "problem" =
      some (Value.str q) := by
  unfold qaBuild mkQAConfig
  dsimp only
  constructor
  · cases remove with
    | false =>
      rw [if_neg (by simp)]
      exact dictGet_set_self _ _ _
    | true =>
      rw [if_pos rfl, if_pos (by decide)]
      rw [dictGet_pop_ne _ _ _ (by decide)]
      exact dictGet_set_self _ _ _
  · cases remove with
    | false =>
      rw [if_neg (by simp)]
      rw [dictGet_set_ne _ _ _ _ (by decide)]
      exact dictGet_set_self _ _ _
    | true =>
      rw [if_pos rfl, if_pos (by decide)]
      rw [dictGet_pop_ne _ _ _ (by decide)]
      rw [dictGet_set_ne _ _ _ _ (by decide)]
      exact dictGet_set_self _ _ _

/-- Success inversion of `processExample`: a non-dropped result comes from a
normal body run returning it. -/
theorem processExample_some (cfg : QAConfig) (ex r : Record)
    (h : processExample cfg ex = some r) :
    processBody cfg ex = Except.ok (some r) := by
  obtain ⟨o, ho⟩ := processBody_ok cfg ex
  unfold processExample at h
  rw [ho] at h
  unfold processExampleWith at h
  rw [ho]
  exact congrArg Except.ok h

/-- Drop lemma: an empty coerced sequence or a length mismatch short-circuits
the body to the drop marker. -/
theorem processBodyCore_drop (cfg : QAConfig) (ex : Record)
    (qs es as : List Value)
    (h : qs = [] ∨ es = [] ∨ as = [] ∨
      ¬(qs.length = es.length ∧ es.length = as.length)) :
    processBodyCore cfg ex qs es as = Except.ok Option.none := by
  unfold processBodyCore
  by_cases hemp : qs.isEmpty = true ∨ es.isEmpty = true ∨ as.isEmpty = true
  · rw [if_pos hemp]
  · rw [if_neg hemp, if_pos]
    intro hml
    rcases h with h | h | h | h
    · exact hemp (Or.inl (by simp [h]))
    · exact hemp (Or.inr (Or.inl (by simp [h])))
    · exact hemp (Or.inr (Or.inr (by simp [h])))
    · exact h ((haveMatchingLengths_iff qs es as).mp hml)

/-- Drop lemma: a failed selection short-circuits the body to the drop
marker. -/
theorem processBodyCore_selnone (cfg : QAConfig) (ex : Record)
    (qs es as : List Value) (h : selectLongestIndex es = Option.none) :
    processBodyCore cfg ex qs es as = Except.ok Option.none := by
  unfold processBodyCore
  split
  · rfl
  · split
    · rfl
    · rw [h]

/-! ## Claims about the Longest-Explanation Selector -/

/-- C2: `_select_longest_index` returns the smallest index whose non-null
entry has the greatest character length after string coercion (strict
greater-than, first occurrence of the maximum wins, null entries skipped
without shifting later indices); it returns no index exactly when every
entry is null, in which case the record is dropped.  In particular
`["a", "bbb", "cc"]` selects index 1 and `[None, "ab"]` selects index 1. -/
theorem claim2_selection :
    (∀ xs : List Value,
      match selectLongestIndex xs with
      | Option.none => ∀ x ∈ xs, x = Value.none
      | some i => ∃ v, xs.get? i = some v ∧ v ≠ Value.none ∧
          (∀ k w, xs.get? k = some w → w ≠ Value.none →
            (pyStr w).length ≤ (pyStr v).length) ∧
          ∀ k w, k < i → xs.get? k = some w → w ≠ Value.none →
            (pyStr w).length < (pyStr v).length) ∧
    selectLongestIndex [Value.str "a", Value.str "bbb", Value.str "cc"] =
      some 1 ∧
    selectLongestIndex [Value.none, Value.str "ab"] = some 1 ∧
    ∀ (cfg : QAConfig) (ex : Record),
      selectLongestIndex
        (asList (dictGet (getSourceContainer cfg ex) cfg.explanation_field)) =
        Option.none →
      processExample cfg ex = Option.none := by
  refine ⟨?_, rfl, rfl, ?_⟩
  · intro xs
    cases hsel : selectLongestIndex xs with
    | none =>
      rw [selectLongestIndex_eq] at hsel
      have hfm : firstMax xs = Option.none := by
        cases hfm : firstMax xs with
        | none => rfl
        | some p => rw [hfm] at hsel; simp at hsel
      exact (firstMax_none_iff xs).mp hfm
    | some i =>
      rw [selectLongestIndex_eq] at hsel
      cases hfm : firstMax xs with
      | none => rw [hfm] at hsel; simp at hsel
      | some p =>
        obtain ⟨j, m⟩ := p
        rw [hfm] at hsel
        simp only [Option.map_some', Option.some_inj] at hsel
        subst hsel
        obtain ⟨v, hget, hvn, hlen, hle, hlt⟩ := firstMax_spec xs j m hfm
        refine ⟨v, hget, hvn, ?_, ?_⟩
        · intro k w hk hw
          rw [hlen]
          exact hle k w hk hw
        · intro k w hkj hk hw
          rw [hlen]
          exact hlt k w hkj hk hw
  · intro cfg ex h
    unfold processExample processBody
    rw [processBodyCore_selnone cfg ex _ _ _ h]
    rfl

/-- C2 witness: the drop conjunct applied to the empty record under the
default configuration. -/
theorem claim2_selection_witness :
    processExample (mkQAConfig true false) [] = Option.none :=
  claim2_selection.2.2.2 (mkQAConfig true false) [] rfl

/-- C10: a successful selection is an in-range index, and (the three
sequences being checked equal-length beforehand) the extraction
`questions[i]`, `explanations[i]`, `answers[i]` never raises `IndexError` -
the body never produces an error at all. -/
theorem claim10_bounds :
    (∀ (xs : List Value) (i : Nat),
      selectLongestIndex xs = some i → i < xs.length) ∧
    ∀ (cfg : QAConfig) (ex : Record),
      processBody cfg ex ≠ Except.error "IndexError" := by
  refine ⟨selectLongestIndex_lt, ?_⟩
  intro cfg ex h
  obtain ⟨o, ho⟩ := processBody_ok cfg ex
  rw [ho] at h
  cases h

/-- C10 witness: the bound at a concrete selection, and the no-error fact at
the empty record. -/
theorem claim10_bounds_witness :
    0 < [Value.str "a"].length ∧
    processBody (mkQAConfig true false) [] ≠ Except.error "IndexError" :=
  ⟨claim10_bounds.1 [Value.str "a"] 0 rfl,
   claim10_bounds.2 (mkQAConfig true false) []⟩

/-- C6: any exception raised inside the body (steps 1-8) is caught by
`process_example`; the original unmodified record is returned when
`keep_unmapped` is set, otherwise the record is dropped, and
`process_example` is exactly this catch wrapper around the body, so the
exception never propagates. -/
theorem claim6_error_containment :
    (∀ (cfg : QAConfig) (ex : Record) (err : String),
      processExampleWith cfg ex (Except.error err) =
        (if cfg.keep_unmapped then some ex else Option.none)) ∧
    ∀ (cfg : QAConfig) (ex : Record),
      processExample cfg ex = processExampleWith cfg ex (processBody cfg ex) :=
  ⟨fun _ _ _ => rfl, fun _ _ => rfl⟩

/-- C7: a missing or non-mapping qa container is treated as empty; a scalar
is coerced to a one-element sequence and a missing value to an empty one;
and an empty coerced sequence or unequal lengths drop the record. -/
theorem claim7_drop_conditions :
    (∀ (cfg : QAConfig) (ex : Record),
      (∀ d, dictGet ex cfg.qa_pairs_field ≠ some (Value.dict d)) →
      getSourceContainer cfg ex = []) ∧
    asList Option.none = [] ∧
    asList (some Value.none) = [] ∧
    (∀ s, asList (some (Value.str s)) = [Value.str s]) ∧
    (∀ l, asList (some (Value.list l)) = l) ∧
    ∀ (cfg : QAConfig) (ex : Record),
      (asList (dictGet (getSourceContainer cfg ex) cfg.question_field) = [] ∨
       asList (dictGet (getSourceContainer cfg ex) cfg.explanation_field) = [] ∨
       asList (dictGet (getSourceContainer cfg ex) cfg.answer_field) = [] ∨
       ¬((asList (dictGet (getSourceContainer cfg ex) cfg.question_field)).length =
           (asList (dictGet (getSourceContainer cfg ex) cfg.explanation_field)).length ∧
         (asList (dictGet (getSourceContainer cfg ex) cfg.explanation_field)).length =
           (asList (dictGet (getSourceContainer cfg ex) cfg.answer_field)).length)) →
      processExample cfg ex = Option.none := by
  refine ⟨?_, rfl, rfl, fun _ => rfl, fun _ => rfl, ?_⟩
  · intro cfg ex h
    unfold getSourceContainer
    cases hv : dictGet ex cfg.qa_pairs_field with
    | none => rfl
    | some v =>
      cases v with
      | dict d => exact absurd hv (h d)
      | none => rfl
      | str s => rfl
      | int n => rfl
      | bool b => rfl
      | bytes l => rfl
      | list l => rfl
      | pil i => rfl
  · intro cfg ex h
    unfold processExample processBody
    rw [processBodyCore_drop cfg ex _ _ _ h]
    rfl

/-- C7 witness: the empty record is dropped under the default configuration,
and its missing container is treated as empty. -/
theorem claim7_drop_conditions_witness :
    getSourceContainer (mkQAConfig true false) [] = [] ∧
    processExample (mkQAConfig true false) [] = Option.none :=
  ⟨claim7_drop_conditions.1 (mkQAConfig true false) []
      (fun _ h => Option.noConfusion h),
   claim7_drop_conditions.2.2.2.2.2 (mkQAConfig true false) []
      (Or.inl rfl)⟩

/-- C1: for a record with three non-empty equal-length coerced sequences
that is not dropped (default field names, any flags), the solution field is
the stripped selected explanation, two newlines, the literal text, the
stripped selected answer and the closing text, and the problem field is the
stripped selected question. -/
theorem claim1_output_template (keep remove : Bool) (ex r : Record)
    (hq : asList (dictGet (getSourceContainer (mkQAConfig keep remove) ex)
      "question") ≠ [])
    (he : asList (dictGet (getSourceContainer (mkQAConfig keep remove) ex)
      "explanation") ≠ [])
    (ha : asList (dictGet (getSourceContainer (mkQAConfig keep remove) ex)
      "answer") ≠ [])
    (hlen : (asList (dictGet (getSourceContainer (mkQAConfig keep remove) ex)
        "question")).length =
      (asList (dictGet (getSourceContainer (mkQAConfig keep remove) ex)
        "explanation")).length ∧
      (asList (dictGet (getSourceContainer (mkQAConfig keep remove) ex)
        "explanation")).length =
      (asList (dictGet (getSourceContainer (mkQAConfig keep remove) ex)
        "answer")).length)
    (hres : processExample (mkQAConfig keep remove) ex = some r) :
    ∃ i vq ve va,
      selectLongestIndex (asList (dictGet
        (getSourceContainer (mkQAConfig keep remove) ex) "explanation")) =
        some i ∧
      (asList (dictGet (getSourceContainer (mkQAConfig keep remove) ex)
        "question")).get? i = some vq ∧
      (asList (dictGet (getSourceContainer (mkQAConfig keep remove) ex)
        "explanation")).get? i = some ve ∧
      (asList (dictGet (getSourceContainer (mkQAConfig keep remove) ex)
        "answer")).get? i = some va ∧
      dictGet r "solution" = some (Value.str (pyStrip (pyStr ve) ++
        "\n\nThe answer is \\boxed\x7b" ++ pyStrip (pyStr va) ++ "\x7d.")) ∧
      dictGet r "problem" = some (Value.str (pyStrip (pyStr vq))) := by
  have hbody := processExample_some _ _ _ hres
  unfold processBody at hbody
  obtain ⟨hq0, he0, ha0, hqe, hea, i, vq, ve, va, hsel, hq2, he2, ha2,
    hs1, hs2, hs3, hr⟩ := processBodyCore_some _ _ _ _ _ _ hbody
  refine ⟨i, vq, ve, va, hsel, hq2, he2, ha2, ?_, ?_⟩
  · rw [hr]
    exact (qaBuild_get_default keep remove ex _ _ _).1
  · rw [hr]
    exact (qaBuild_get_default keep remove ex _ _ _).2

/-- A concrete record holding one question/explanation/answer triple. -/
def qaSample : Record :=
  [("qa_pairs", Value.dict [("question", Value.str "q"),
    ("explanation", Value.str "e"), ("answer", Value.str "a")])]

/-- The output of the selector on `qaSample` with `keep_unmapped`. -/
def qaSampleOut : Record :=
  [("qa_pairs", Value.dict [("question", Value.str "q"),
    ("explanation", Value.str "e"), ("answer", Value.str "a")]),
   ("problem", Value.str "q"),
   ("solution", Value.str "e\n\nThe answer is \\boxed\x7ba\x7d.")]

/-- The output of the selector on `qaSample` with `keep_unmapped = false`
and `remove_source_fields = true`. -/
def qaSampleOutBare : Record :=
  [("problem", Value.str "q"),
   ("solution", Value.str "e\n\nThe answer is \\boxed\x7ba\x7d.")]

/-- C1 witness: the template theorem at `qaSample`. -/
theorem claim1_output_template_witness :
    ∃ i vq ve va,
      selectLongestIndex (asList (dictGet
        (getSourceContainer (mkQAConfig true false) qaSample) "explanation")) =
        some i ∧
      (asList (dictGet (getSourceContainer (mkQAConfig true false) qaSample)
        "question")).get? i = some vq ∧
      (asList (dictGet (getSourceContainer (mkQAConfig true false) qaSample)
        "explanation")).get? i = some ve ∧
      (asList (dictGet (getSourceContainer (mkQAConfig true false) qaSample)
        "answer")).get? i = some va ∧
      dictGet qaSampleOut "solution" = some (Value.str (pyStrip (pyStr ve) ++
        "\n\nThe answer is \\boxed\x7b" ++ pyStrip (pyStr va) ++ "\x7d.")) ∧
      dictGet qaSampleOut "problem" = some (Value.str (pyStrip (pyStr vq))) :=
  claim1_output_template true false qaSample qaSampleOut
    (fun h => List.noConfusion h) (fun h => List.noConfusion h)
    (fun h => List.noConfusion h) ⟨rfl, rfl⟩ rfl

/-- C3: with `keep_unmapped = false` and `remove_source_fields = true`
(default field names), a successfully processed record yields an output
holding exactly the problem and solution fields. -/
theorem claim3_minimal_output (ex r : Record)
    (h : processExample (mkQAConfig false true) ex = some r) :
    ∀ k, (dictGet r k).isSome ↔ (k = "problem" ∨ k = "solution") := by
  have hbody := processExample_some _ _ _ h
  unfold processBody at hbody
  obtain ⟨-, -, -, -, -, i, vq, ve, va, -, -, -, -, -, -, -, hr⟩ :=
    processBodyCore_some _ _ _ _ _ _ hbody
  have hbuild : qaBuild (mkQAConfig false true) ex (pyStrip (pyStr vq))
      (pyStrip (pyStr ve)) (pyStrip (pyStr va)) =
      [("problem", Value.str (pyStrip (pyStr vq))),
       ("solution", Value.str (formatSolution (pyStrip (pyStr ve))
         (pyStrip (pyStr va))))] := rfl
  intro k
  rw [hr, hbuild]
  by_cases h1 : k = "problem"
  · subst h1
    simp [dictGet]
  · by_cases h2 : k = "solution"
    · subst h2
      simp [dictGet]
    · have h1s : ¬("problem" = k) := fun hh => h1 hh.symm
      have h2s : ¬("solution" = k) := fun hh => h2 hh.symm
      simp [dictGet, h1, h2, h1s, h2s]

/-- C3 witness: the minimal-output theorem at `qaSample`, evaluated at a
kept key and at the removed container key. -/
theorem claim3_minimal_output_witness :
    ((dictGet qaSampleOutBare "problem").isSome ↔
      ("problem" = "problem" ∨ "problem" = "solution")) ∧
    ((dictGet qaSampleOutBare "qa_pairs").isSome ↔
      ("qa_pairs" = "problem" ∨ "qa_pairs" = "solution")) :=
  ⟨claim3_minimal_output qaSample qaSampleOutBare rfl "problem",
   claim3_minimal_output qaSample qaSampleOutBare rfl "qa_pairs"⟩

/-! ## Lemmas about the Image Normalizer -/

/-- The per-record conversion code only raises conversion failures, never a
capability (`ImportError`) failure: value-level hf_image dispatch. -/
theorem convertToPilValue_error (rt : ImageRuntime) (ex : Record)
    (field : String) (v : Value) (e : ImgErr)
    (h : convertToPilValue rt ex field v = Except.error e) :
    e = ImgErr.b64Error ∨ e = ImgErr.imageError ∨ e = ImgErr.pathError := by
  unfold convertToPilValue at h
  iterate 8 (all_goals try split at h)
  all_goals simp_all

/-- Value-level bytes dispatch only raises conversion failures. -/
theorem convertToBytesValue_error (rt : ImageRuntime) (ex : Record)
    (field : String) (v : Value) (e : ImgErr)
    (h : convertToBytesValue rt ex field v = Except.error e) :
    e = ImgErr.b64Error ∨ e = ImgErr.imageError ∨ e = ImgErr.pathError := by
  unfold convertToBytesValue at h
  iterate 8 (all_goals try split at h)
  all_goals simp_all

/-- `_convert_to_pil` only raises conversion failures. -/
theorem convertToPil_error (rt : ImageRuntime) (skip : Bool) (ex : Record)
    (field : String) (e : ImgErr)
    (h : convertToPil rt skip ex field = Except.error e) :
    e = ImgErr.b64Error ∨ e = ImgErr.imageError ∨ e = ImgErr.pathError := by
  unfold convertToPil at h
  split at h
  · cases h
  · rename_i imageData hget
    split at h
    · cases h
    · rename_i e2 herr
      split at h
      · cases h
      · injection h with h2
        subst h2
        exact convertToPilValue_error rt ex field imageData _ herr

/-- A `_convert_to_bytes` field iteration only raises conversion failures. -/
theorem convertToBytesField_error (rt : ImageRuntime) (skip : Bool)
    (ex : Record) (field : String) (e : ImgErr)
    (h : convertToBytesField rt skip ex field = Except.error e) :
    e = ImgErr.b64Error ∨ e = ImgErr.imageError ∨ e = ImgErr.pathError := by
  unfold convertToBytesField at h
  split at h
  · cases h
  · rename_i imageData hget
    split at h
    · cases h
    · rename_i e2 herr
      split at h
      · cases h
      · injection h with h2
        subst h2
        exact convertToBytesValue_error rt ex field imageData _ herr

/-- The hf_image field loop only raises conversion failures. -/
theorem convertFieldsPil_error (rt : ImageRuntime) (skip : Bool) :
    ∀ (fs : List String) (ex : Record) (e : ImgErr),
      convertFieldsPil rt skip fs ex = Except.error e →
      e = ImgErr.b64Error ∨ e = ImgErr.imageError ∨ e = ImgErr.pathError := by
  intro fs
  induction fs with
  | nil => intro ex e h; cases h
  | cons f fs ih =>
    intro ex e h
    unfold convertFieldsPil at h
    split at h
    · rename_i e2 hc
      injection h with h2
      subst h2
      exact convertToPil_error rt skip ex f _ hc
    · rename_i p hc
      split at h
      · rename_i e2 hrec
        injection h with h2
        subst h2
        exact ih _ _ hrec
      · cases h

/-- The bytes field loop only raises conversion failures. -/
theorem convertToBytes_error (rt : ImageRuntime) (skip : Bool) :
    ∀ (fs : List String) (ex : Record) (e : ImgErr),
      convertToBytes rt skip fs ex = Except.error e →
      e = ImgErr.b64Error ∨ e = ImgErr.imageError ∨ e = ImgErr.pathError := by
  intro fs
  induction fs with
  | nil => intro ex e h; cases h
  | cons f fs ih =>
    intro ex e h
    unfold convertToBytes at h
    split at h
    · rename_i e2 hc
      injection h with h2
      subst h2
      exact convertToBytesField_error rt skip ex f _ hc
    · rename_i p hc
      split at h
      · rename_i e2 hrec
        injection h with h2
        subst h2
        exact ih _ _ hrec
      · cases h

/-- `process_example` of the image converter only raises conversion
failures. -/
theorem imgProcessExample_error (rt : ImageRuntime) (p : ImgProcessor)
    (ex : Record) (e : ImgErr)
    (h : imgProcessExample rt p ex = Except.error e) :
    e = ImgErr.b64Error ∨ e = ImgErr.imageError ∨ e = ImgErr.pathError := by
  unfold imgProcessExample at h
  split at h
  · split at h
    · rename_i e2 hc
      injection h with h2
      subst h2
      exact convertFieldsPil_error rt p.skip_on_error p.image_fields ex _ hc
    · cases h
  · split at h
    · rename_i e2 hc
      injection h with h2
      subst h2
      exact convertToBytes_error rt p.skip_on_error p.image_fields ex _ hc
    · cases h

/-- A normal `process_example` run of the image converter always returns a
present record. -/
theorem imgProcessExample_ok_some (rt : ImageRuntime) (p : ImgProcessor)
    (ex : Record) (res : Option Record × List String)
    (h : imgProcessExample rt p ex = Except.ok res) :
    res.1.isSome = true := by
  unfold imgProcessExample at h
  split at h
  · split at h
    · cases h
    · injection h with h2
      subst h2
      rfl
  · split at h
    · cases h
    · injection h with h2
      subst h2
      rfl

/-! ## Claims about the Image Normalizer -/

/-- C4: with target=encoded (`bytes`), a structured `\x7bbytes: <base64
text>\x7d` whose base64 decode fails raises with `skip_on_error = false`
(the error leaves `process_example` and, under the Executor's default mode,
aborts the run), and with `skip_on_error = true` is logged and processing
continues with the field unchanged. -/
theorem claim4_encoded_strict (rt : ImageRuntime) (f s : String)
    (d : List (String × Value)) (ex : Record)
    (hf : dictGet ex f = some (Value.dict d))
    (hb : dictGet d "bytes" = some (Value.str s))
    (hdec : rt.b64decode s = Option.none) :
    imgProcessExample rt ⟨[f], "bytes", false⟩ ex =
      Except.error ImgErr.b64Error ∧
    defaultApply (fun r => Except.map Prod.fst
      (imgProcessExample rt ⟨[f], "bytes", false⟩ r)) [ex] =
      Except.error ImgErr.b64Error ∧
    imgProcessExample rt ⟨[f], "bytes", true⟩ ex =
      Except.ok (some ex, [warnConvertBytes f]) := by
  have hval : convertToBytesValue rt ex f (Value.dict d) =
      Except.error ImgErr.b64Error := by
    unfold convertToBytesValue
    rw [if_neg (by simp [isNone]), if_neg (by simp [isPIL]),
      if_pos (by simp [isDict])]
    have hda : asDict (Value.dict d) = d := rfl
    rw [hda]
    rw [if_pos (by rw [hb]; rfl)]
    have hgd : dictGetD d "bytes" = Value.str s := by
      unfold dictGetD; rw [hb]; rfl
    rw [hgd]
    rw [if_pos (by simp [isStr])]
    have has : asStr (Value.str s) = s := rfl
    rw [has, hdec]
  have hfield_f : convertToBytesField rt false ex f =
      Except.error ImgErr.b64Error := by
    unfold convertToBytesField
    rw [hf]
    dsimp only
    rw [hval]
    rfl
  have hfield_t : convertToBytesField rt true ex f =
      Except.ok (ex, [warnConvertBytes f]) := by
    unfold convertToBytesField
    rw [hf]
    dsimp only
    rw [hval]
    rfl
  have himg_f : imgProcessExample rt ⟨[f], "bytes", false⟩ ex =
      Except.error ImgErr.b64Error := by
    show (match convertToBytes rt false [f] ex with
      | Except.error e => Except.error e
      | Except.ok (ex2, w) => Except.ok (some ex2, w)) =
      Except.error ImgErr.b64Error
    unfold convertToBytes
    rw [hfield_f]
  have himg_t : imgProcessExample rt ⟨[f], "bytes", true⟩ ex =
      Except.ok (some ex, [warnConvertBytes f]) := by
    show (match convertToBytes rt true [f] ex with
      | Except.error e => Except.error e
      | Except.ok (ex2, w) => Except.ok (some ex2, w)) =
      Except.ok (some ex, [warnConvertBytes f])
    unfold convertToBytes
    rw [hfield_t]
    rfl
  refine ⟨himg_f, ?_, himg_t⟩
  unfold defaultApply
  rw [himg_f]
  rfl

/-- C5: with target=decoded (`hf_image`), a bare base64 text whose base64
decode or subsequent image decode fails leaves the field unchanged with a
logged warning and raises nothing, for both values of `skip_on_error`. -/
theorem claim5_decoded_swallow (rt : ImageRuntime) (f s : String)
    (ex : Record) (skip : Bool)
    (hf : dictGet ex f = some (Value.str s))
    (hfail : rt.b64decode s = Option.none ∨
      ∃ bs, rt.b64decode s = some bs ∧ rt.pilOpenBytes bs = Option.none) :
    imgProcessExample rt ⟨[f], "hf_image", skip⟩ ex =
      Except.ok (some ex, [warnB64 f]) := by
  have hval : convertToPilValue rt ex f (Value.str s) =
      Except.ok (ex, [warnB64 f]) := by
    unfold convertToPilValue
    rw [if_neg (by simp [isNone]), if_neg (by simp [isPIL]),
      if_neg (by simp [isDict]), if_neg (by simp [isBytes]),
      if_pos (by simp [isStr])]
    have has : asStr (Value.str s) = s := rfl
    rw [has]
    rcases hfail with h1 | ⟨bs, h1, h2⟩
    · rw [h1]
    · rw [h1]
      dsimp only
      rw [h2]
  have hpil : convertToPil rt skip ex f = Except.ok (ex, [warnB64 f]) := by
    unfold convertToPil
    rw [hf]
    dsimp only
    rw [hval]
  show (match convertFieldsPil rt skip [f] ex with
    | Except.error e => Except.error e
    | Except.ok (ex2, w) => Except.ok (some ex2, w)) =
    Except.ok (some ex, [warnB64 f])
  unfold convertFieldsPil
  rw [hpil]
  dsimp only
  unfold convertFieldsPil
  dsimp only
  rw [List.append_nil]

/-- C8: construction fails fast exactly when PIL or `datasets.Image` is
missing; with both capabilities it succeeds for any configuration, and
`process_example` never raises a capability (`ImportError`) failure. -/
theorem claim8_capabilities :
    (∀ (rt : ImageRuntime) (cfg : ImgConfig),
      (rt.hasPIL = true ∧ rt.hasDatasetsImage = true →
        imgInit rt cfg = Except.ok
          ⟨cfg.image_fields, cfg.target_format, cfg.skip_on_error⟩) ∧
      (¬(rt.hasPIL = true ∧ rt.hasDatasetsImage = true) →
        imgInit rt cfg = Except.error ImgErr.importPIL ∨
        imgInit rt cfg = Except.error ImgErr.importDatasets)) ∧
    ∀ (rt : ImageRuntime) (p : ImgProcessor) (ex : Record) (e : ImgErr),
      imgProcessExample rt p ex = Except.error e →
      e ≠ ImgErr.importPIL ∧ e ≠ ImgErr.importDatasets := by
  constructor
  · intro rt cfg
    constructor
    · intro ⟨h1, h2⟩
      unfold imgInit
      rw [if_neg (by simp [h1]), if_neg (by simp [h2])]
    · intro h
      unfold imgInit
      by_cases h1 : rt.hasPIL = true
      · have h2 : ¬ rt.hasDatasetsImage = true := fun hh => h ⟨h1, hh⟩
        right
        rw [if_neg (by simp [h1]), if_pos (by simp [h2])]
      · left
        rw [if_pos (by simp [h1])]
  · intro rt p ex e h
    rcases imgProcessExample_error rt p ex e h with h1 | h1 | h1 <;>
      subst h1 <;> exact ⟨by decide, by decide⟩

/-- C9: `process_example` of the image converter never returns the absent
marker, so the Executor's default map-and-filter mode preserves the record
count on every run it completes. -/
theorem claim9_never_drops :
    (∀ (rt : ImageRuntime) (p : ImgProcessor) (ex : Record)
      (res : Option Record × List String),
      imgProcessExample rt p ex = Except.ok res → res.1.isSome = true) ∧
    ∀ (rt : ImageRuntime) (p : ImgProcessor) (rs out : List Record),
      defaultApply (fun r => Except.map Prod.fst (imgProcessExample rt p r))
        rs = Except.ok out →
      out.length = rs.length := by
  constructor
  · exact imgProcessExample_ok_some
  · intro rt p rs
    induction rs with
    | nil =>
      intro out h
      unfold defaultApply at h
      injection h with h2
      rw [← h2]
    | cons r rs ih =>
      intro out h
      unfold defaultApply at h
      cases himg : imgProcessExample rt p r with
      | error e =>
        rw [himg] at h
        simp [Except.map] at h
      | ok res =>
        rw [himg] at h
        have hsome := imgProcessExample_ok_some rt p r res himg
        obtain ⟨rec2, hres⟩ := Option.isSome_iff_exists.mp hsome
        rw [show Except.map Prod.fst (Except.ok res) =
          (Except.ok res.1 : Except ImgErr (Option Record)) from rfl] at h
        rw [hres] at h
        dsimp only at h
        cases hrec : defaultApply (fun r => Except.map Prod.fst
            (imgProcessExample rt p r)) rs with
        | error e => rw [hrec] at h; cases h
        | ok out2 =>
          rw [hrec] at h
          injection h with h2
          rw [← h2]
          simp [ih out2 hrec]

/-- A runtime with both capabilities whose base64 and image decoding always
fail. -/
def rtFailing : ImageRuntime :=
  ⟨true, true, fun _ => Option.none, fun _ => Option.none,
   fun _ => Option.none, fun i => i.data⟩

/-- A record with a structured image field carrying a textual payload. -/
def imgSampleDict : Record :=
  [("image", Value.dict [("bytes", Value.str "xx")])]

/-- A record with a bare base64-text image field. -/
def imgSampleStr : Record := [("image", Value.str "xx")]

/-- C4 witness: the strict/lenient pair at a concrete runtime and record. -/
theorem claim4_encoded_strict_witness :
    imgProcessExample rtFailing ⟨["image"], "bytes", false⟩ imgSampleDict =
      Except.error ImgErr.b64Error ∧
    defaultApply (fun r => Except.map Prod.fst
      (imgProcessExample rtFailing ⟨["image"], "bytes", false⟩ r))
      [imgSampleDict] = Except.error ImgErr.b64Error ∧
    imgProcessExample rtFailing ⟨["image"], "bytes", true⟩ imgSampleDict =
      Except.ok (some imgSampleDict, [warnConvertBytes "image"]) :=
  claim4_encoded_strict rtFailing "image" "xx"
    [("bytes", Value.str "xx")] imgSampleDict rfl rfl rfl

/-- C5 witness: the swallow behaviour at a concrete runtime and record,
with the strict flag set. -/
theorem claim5_decoded_swallow_witness :
    imgProcessExample rtFailing ⟨["image"], "hf_image", false⟩ imgSampleStr =
      Except.ok (some imgSampleStr, [warnB64 "image"]) :=
  claim5_decoded_swallow rtFailing "image" "xx" imgSampleStr false rfl
    (Or.inl rfl)

/-- C8 witness: construction at a capable runtime, failure at an incapable
one, and the classified error of a concrete failing conversion. -/
theorem claim8_capabilities_witness :
    imgInit rtFailing {} = Except.ok ⟨["image"], "hf_image", true⟩ ∧
    (imgInit ⟨false, true, fun _ => Option.none, fun _ => Option.none,
        fun _ => Option.none, fun i => i.data⟩ {} =
        Except.error ImgErr.importPIL ∨
      imgInit ⟨false, true, fun _ => Option.none, fun _ => Option.none,
        fun _ => Option.none, fun i => i.data⟩ {} =
        Except.error ImgErr.importDatasets) ∧
    ImgErr.b64Error ≠ ImgErr.importPIL ∧
    ImgErr.b64Error ≠ ImgErr.importDatasets :=
  ⟨(claim8_capabilities.1 rtFailing {}).1 ⟨rfl, rfl⟩,
   (claim8_capabilities.1 ⟨false, true, fun _ => Option.none,
      fun _ => Option.none, fun _ => Option.none, fun i => i.data⟩ {}).2
     (fun h => Bool.noConfusion h.1),
   claim8_capabilities.2 rtFailing ⟨["image"], "bytes", false⟩
     imgSampleDict ImgErr.b64Error
     (claim4_encoded_strict rtFailing "image" "xx"
       [("bytes", Value.str "xx")] imgSampleDict rfl rfl rfl).1⟩

/-- C9 witness: no drop and count preservation at a concrete runtime. -/
theorem claim9_never_drops_witness :
    (some imgSampleStr, [warnB64 "image"]).1.isSome = true ∧
    ([imgSampleStr] : List Record).length = [imgSampleStr].length :=
  ⟨claim9_never_drops.1 rtFailing ⟨["image"], "hf_image", true⟩ imgSampleStr
      (some imgSampleStr, [warnB64 "image"])
      (claim5_decoded_swallow rtFailing "image" "xx" imgSampleStr true rfl
        (Or.inl rfl)),
   claim9_never_drops.2 rtFailing ⟨["image"], "hf_image", true⟩
     [imgSampleStr] [imgSampleStr] rfl⟩

end DataPreproc
